import Mathlib

/-
Verification of the protobuf encoding module of a metrics registry
(`src/encoding/proto.rs`).  The exchange data model mirrors the generated
`openmetrics_data_model` module; the registry, counter and family state
types are modelled from the specification, since their definitions live
outside the analyzed slice.  The encoding functions themselves are
translated directly from the source.
-/

namespace ClientRust

namespace openmetrics_data_model

/-- Exchange-format label: an ordered (name, value) pair of text. -/
structure Label where
  name : String
  value : String
deriving DecidableEq

namespace counter_value

/-- The `total` oneof of a CounterValue: the schema permits an integer
(u64) or a floating-point representation.  The float payload is not
modelled (floating point is outside the shallow embedding); the encoder
under verification never constructs it. -/
inductive Total where
  | intValue (v : Nat)
  | doubleValue
deriving DecidableEq

end counter_value

/-- Exchange-format counter value; `total` is optional in the schema and
absent in the default value. -/
structure CounterValue where
  total : Option counter_value.Total
deriving DecidableEq

namespace metric_point

/-- The `value` oneof of a MetricPoint.  Only the counter variant is
exercised by the code under verification; the other schema variants
(gauge, histogram, ...) are irrelevant to every claim and omitted. -/
inductive Value where
  | counterValue (v : CounterValue)
deriving DecidableEq

end metric_point

/-- Exchange-format metric point; `value` is optional, absent by default. -/
structure MetricPoint where
  value : Option metric_point.Value
deriving DecidableEq

/-- Exchange-format metric: a label set and a sequence of points. -/
structure Metric where
  labels : List Label
  metric_points : List MetricPoint
deriving DecidableEq

/-- The exchange schema's MetricType enumeration (fixed external data
model; the proto file is outside the analyzed slice). -/
inductive MetricType where
  | unknown
  | gauge
  | counter
  | stateSet
  | info
  | histogram
  | gaugeHistogram
  | summary
deriving DecidableEq

/-- The numeric enum code of an exchange MetricType, as fixed by the
exchange schema (the `as i32` cast in the source). -/
def MetricType.toI32 : MetricType → Int
  | .unknown => 0
  | .gauge => 1
  | .counter => 2
  | .stateSet => 3
  | .info => 4
  | .histogram => 5
  | .gaugeHistogram => 6
  | .summary => 7

/-- Exchange-format metric family.  The default value (all fields empty,
type code 0) is what `MetricFamily::default()` produces; fields the
encoder does not set keep their default. -/
structure MetricFamily where
  name : String
  type : Int
  unit : String
  help : String
  metrics : List Metric
deriving DecidableEq

/-- The default MetricFamily: every text field empty, type code 0, no
metrics.  In particular `unit` defaults to the empty string. -/
def MetricFamily.default : MetricFamily :=
  ⟨"", 0, "", "", []⟩

/-- Exchange-format root value: an ordered sequence of families. -/
structure MetricSet where
  metric_families : List MetricFamily
deriving DecidableEq

end openmetrics_data_model

namespace metrics

/-- The crate-side MetricType enumeration.  Modelled from the spec: a
closed enumeration Counter, Gauge, Histogram, Info, Unknown describing
the semantic kind of a metric family (its definition lives outside the
analyzed slice). -/
inductive MetricType where
  | counter
  | gauge
  | histogram
  | info
  | unknown
deriving DecidableEq

end metrics

/-- Translation of `impl From<MetricType> for openmetrics_data_model::MetricType`
(source lines 56-66): the fixed crate-enum to exchange-enum table. -/
def metricTypeFrom : metrics.MetricType → openmetrics_data_model.MetricType
  | .counter => .counter
  | .gauge => .gauge
  | .histogram => .histogram
  | .info => .info
  | .unknown => .unknown

namespace registry

/-- The registry's Unit type.  Modelled from the spec: a closed set of
nine physical units plus an open Other(text) variant (its definition
lives outside the analyzed slice). -/
inductive Unit where
  | amperes
  | bytes
  | celsius
  | grams
  | joules
  | meters
  | ratios
  | seconds
  | volts
  | other (s : String)
deriving DecidableEq

/-- Modelled from the spec: a MetricDescriptor exposes name, help, an
optional unit, and the static labels contributed by the registry path
(the Descriptor type lives outside the analyzed slice).  The static
labels are text pairs, matching the registry's label representation. -/
structure Descriptor where
  name : String
  help : String
  unit : Option Unit
  labels : List (String × String)

/-- Modelled from the spec: a registry exposes an ordered iteration of
(descriptor, metric) pairs in stable registration order (the Registry
type lives outside the analyzed slice); the iteration snapshot is the
list of entries in that order. -/
structure Registry (M : Type u) where
  entries : List (Descriptor × M)

/-- The registry's `iter()`: the entries in registration order. -/
def Registry.iter (r : Registry M) : List (Descriptor × M) :=
  r.entries

end registry

/-- Modelled from the spec: a Counter holds one monotonically
non-decreasing integer total (its definition lives outside the analyzed
slice); a value of this type is the counter's state as observed at the
moment of a read. -/
structure Counter where
  value : Nat
deriving DecidableEq

/-- The counter's read operation: the current total. -/
def Counter.get (c : Counter) : Nat :=
  c.value

/-- Modelled from the spec: the counter's increment operation raises the
total by one. -/
def Counter.inc (c : Counter) : Counter :=
  ⟨c.value + 1⟩

/-- Modelled from the spec: a fresh counter starts at zero. -/
def Counter.default : Counter :=
  ⟨0⟩

/-- A counter after `k` increments from a given state. -/
def Counter.incN (c : Counter) : Nat → Counter
  | 0 => c
  | k + 1 => (c.incN k).inc

/-- Modelled from the spec: the Family's `read()` yields a read-only view
over the current key-to-instance mapping; a value of this type is that
snapshot, the (key, instance) pairs in iteration order (the Family type
lives outside the analyzed slice).  The constructor parameter `C` of the
source type plays no role in encoding and is not modelled. -/
structure Family (S : Type u) (M : Type v) where
  entries : List (S × M)

/-- The family's read-only view: its entries at the moment of the read. -/
def Family.read (f : Family S M) : List (S × M) :=
  f.entries

/-- Translation of the `EncodeLabel` trait (source lines 108-110). -/
class EncodeLabel (α : Type u) where
  encode : α → List openmetrics_data_model.Label

/-- Translation of the `TypedMetric` trait: the fixed MetricType
associated with a metric kind (its declaration lives outside the
analyzed slice; the source uses it as `M::TYPE`). -/
class TypedMetric (M : Type u) where
  TYPE : metrics.MetricType

/-- Translation of the `EncodeMetric` trait (source lines 69-76). -/
class EncodeMetric (α : Type u) where
  encode : α → List openmetrics_data_model.Label → List openmetrics_data_model.Metric
  metric_type : α → metrics.MetricType

/-- Translation of `impl EncodeLabel for (K, V)` (source lines 112-119):
build one default Label, set its name and value from the textual
representations of the components, return a one-element vector. -/
instance instEncodeLabelPair [ToString K] [ToString V] : EncodeLabel (K × V) where
  encode p := [⟨toString p.1, toString p.2⟩]

/-- Translation of `impl EncodeLabel for Vec<T>` (source lines 121-129):
start from an empty vector and append each element's own encoding in
order.  `impl EncodeLabel for &[T]` (source lines 131-139) is the same
function over the same element sequence. -/
instance instEncodeLabelList [EncodeLabel T] : EncodeLabel (List T) where
  encode ts := ts.foldl (fun acc t => acc ++ EncodeLabel.encode t) []

/-- Translation of `EncodeMetric::encode for Counter` (source lines
144-168): one default Metric with its labels set to the argument and a
single MetricPoint whose value is a CounterValue whose total is the
integer variant of `self.get()`. -/
def Counter.encodeMetric (c : Counter)
    (labels : List openmetrics_data_model.Label) :
    List openmetrics_data_model.Metric :=
  [⟨labels, [⟨some (.counterValue ⟨some (.intValue c.get)⟩)⟩]⟩]

/-- Translation of `impl EncodeMetric for Counter` (source lines
144-173); `metric_type` returns `MetricType::Counter` (lines 170-172). -/
instance instEncodeMetricCounter : EncodeMetric Counter where
  encode := Counter.encodeMetric
  metric_type _ := metrics.MetricType.counter

/-- Translation of `EncodeMetric::encode for Family` (source lines
184-198): over the read view, for each (label_set, metric) pair compute
`label_set.encode()` followed by a clone of the argument labels, and
extend the accumulator with that instance's own encoding.  The source's
`S: Clone + Hash + Eq` bounds govern the store, not the encoding, and
are not needed here. -/
def Family.encodeMetric [EncodeLabel S] [EncodeMetric M] (f : Family S M)
    (labels : List openmetrics_data_model.Label) :
    List openmetrics_data_model.Metric :=
  f.read.foldl
    (fun metrics p =>
      metrics ++ EncodeMetric.encode p.2 (EncodeLabel.encode p.1 ++ labels))
    []

/-- Translation of `impl EncodeMetric for Family` (source lines 178-203);
`metric_type` returns `M::TYPE` (lines 200-202). -/
instance instEncodeMetricFamily [EncodeLabel S] [EncodeMetric M] [TypedMetric M] :
    EncodeMetric (Family S M) where
  encode := Family.encodeMetric
  metric_type _ := TypedMetric.TYPE M

/-- Translation of `Box<dyn EncodeMetric>`: a type-erased owning handle
bundling a metric value with its EncodeMetric capability. -/
structure BoxedMetric : Type 1 where
  Inner : Type
  inst : EncodeMetric Inner
  val : Inner

/-- Translation of `impl EncodeMetric for Box<dyn EncodeMetric>` (source
lines 78-89): both operations forward to the dereferenced inner value. -/
instance instEncodeMetricBoxed : EncodeMetric BoxedMetric where
  encode b labels := @EncodeMetric.encode b.Inner b.inst b.val labels
  metric_type b := @EncodeMetric.metric_type b.Inner b.inst b.val

/-- Translation of `Box<dyn SendEncodeMetric>`: the same erased handle
for metrics that are also Send.  Send is a thread-safety marker with no
semantic content representable in the embedding, so the carried data is
the same as for BoxedMetric. -/
structure SendBoxedMetric : Type 1 where
  Inner : Type
  inst : EncodeMetric Inner
  val : Inner

/-- Translation of `impl EncodeMetric for Box<dyn SendEncodeMetric>`
(source lines 95-106): both operations forward to the inner value. -/
instance instEncodeMetricSendBoxed : EncodeMetric SendBoxedMetric where
  encode b labels := @EncodeMetric.encode b.Inner b.inst b.val labels
  metric_type b := @EncodeMetric.metric_type b.Inner b.inst b.val

/-- The unit-to-canonical-string table of the top-level encode (source
lines 31-43): nine fixed lowercase words, and the literal contained text
for Other. -/
def unitToString : registry.Unit → String
  | .amperes => "amperes"
  | .bytes => "bytes"
  | .celsius => "celsius"
  | .grams => "grams"
  | .joules => "joules"
  | .meters => "meters"
  | .ratios => "ratios"
  | .seconds => "seconds"
  | .volts => "volts"
  | .other s => s

/-- The family built for one registry entry by the top-level encode
(source lines 20-49): start from the default MetricFamily, set name,
type (the exchange-enum code of the metric's type), unit (only when the
descriptor has one; otherwise the default empty string remains), help,
and the metrics produced by the metric's own encode applied to the
encoding of the descriptor's labels. -/
def encodeEntry [EncodeMetric M] (p : registry.Descriptor × M) :
    openmetrics_data_model.MetricFamily :=
  { openmetrics_data_model.MetricFamily.default with
    name := p.1.name
    type := (metricTypeFrom (EncodeMetric.metric_type p.2)).toI32
    unit :=
      match p.1.unit with
      | some u => unitToString u
      | none => openmetrics_data_model.MetricFamily.default.unit
    help := p.1.help
    metrics := EncodeMetric.encode p.2 (EncodeLabel.encode p.1.labels) }

/-- The line printed for one registry entry (source line 47): the
`println!` emits "family.help: " followed by the family's help text. -/
def helpLine (desc : registry.Descriptor) : String :=
  "family.help: " ++ desc.help

/-- Translation of the top-level `encode` (source lines 12-54): starting
from the default (empty) MetricSet, push one family per registry entry
in iteration order.  The source's `println!` side effect is modelled
explicitly: the second component collects the lines printed to standard
output, one per entry, in order. -/
def encode [EncodeMetric M] (r : registry.Registry M) :
    openmetrics_data_model.MetricSet × List String :=
  r.iter.foldl
    (fun acc p =>
      (⟨acc.1.metric_families ++ [encodeEntry p]⟩, acc.2 ++ [helpLine p.1]))
    (⟨[]⟩, [])

end ClientRust

/-
Helper lemmas shared by the claim theorems.
-/

namespace ClientRust

/-- The accumulating loop of the top-level encode, started from an
arbitrary accumulator, appends one family and one printed line per
entry, in order. -/
theorem encode_loop_eq_map [EncodeMetric M] :
    ∀ (l : List (registry.Descriptor × M))
      (fams : List openmetrics_data_model.MetricFamily) (tr : List String),
      l.foldl
          (fun (acc : openmetrics_data_model.MetricSet × List String) p =>
            (⟨acc.1.metric_families ++ [encodeEntry p]⟩, acc.2 ++ [helpLine p.1]))
          (⟨fams⟩, tr)
        = (⟨fams ++ l.map encodeEntry⟩, tr ++ l.map fun p => helpLine p.1) := by
  intro l
  induction l with
  | nil => intro fams tr; simp
  | cons h t ih =>
      intro fams tr
      simpa [List.append_assoc] using
        ih (fams ++ [encodeEntry h]) (tr ++ [helpLine h.1])

/-- A left fold that appends the image of each element equals the
accumulator followed by the flattened image of the list. -/
theorem foldl_append_eq_join (g : α → List β) :
    ∀ (l : List α) (acc : List β),
      l.foldl (fun ms p => ms ++ g p) acc = acc ++ (l.map g).flatten := by
  intro l
  induction l with
  | nil => intro acc; simp
  | cons h t ih =>
      intro acc
      simpa [List.append_assoc] using ih (acc ++ g h)

/-- The unit branch of encodeEntry, written with Option combinators. -/
theorem encodeEntry_unit_eq [EncodeMetric M] (p : registry.Descriptor × M) :
    (encodeEntry p).unit = (p.1.unit.map unitToString).getD "" := by
  cases h : p.1.unit <;> simp [encodeEntry, h, openmetrics_data_model.MetricFamily.default]

end ClientRust

/-
Claim theorems.
-/

namespace ClientRust

/-- C1: for every registry, the top-level encode returns a MetricSet
containing exactly one exchange MetricFamily per (descriptor, metric)
pair, in registry iteration (registration) order, where each family has
name = descriptor.name, help = descriptor.help, type = the exchange-enum
code of metric_type(), unit = the unit table applied to the descriptor's
unit (empty when absent), and metrics = the metric's encode applied to
the Label-Encoder encoding of the descriptor's labels. -/
theorem encode_one_family_per_entry_in_order (M : Type) [EncodeMetric M]
    (r : registry.Registry M) :
    (encode r).1.metric_families =
      r.iter.map fun p =>
        ⟨p.1.name,
         (metricTypeFrom (EncodeMetric.metric_type p.2)).toI32,
         (p.1.unit.map unitToString).getD "",
         p.1.help,
         EncodeMetric.encode p.2 (EncodeLabel.encode p.1.labels)⟩ := by
  have h := encode_loop_eq_map (M := M) r.iter [] []
  unfold encode
  rw [h]
  simp only [List.nil_append]
  refine List.map_congr_left fun p _ => ?_
  cases hup : p.1.unit <;>
    simp [encodeEntry, hup, openmetrics_data_model.MetricFamily.default]

end ClientRust

namespace ClientRust

/-- C2: Family encode produces, for each (key, instance) pair present in
its store, the instance's own encode output at the labels
key.encode() ++ prefix labels (key-derived labels before the inherited
ones), concatenated in store-iteration order; a Family with zero entries
yields an empty metric sequence. -/
theorem family_encode_key_labels_then_inherited (S M : Type)
    [EncodeLabel S] [EncodeMetric M] [TypedMetric M] :
    (∀ (f : Family S M) (labels : List openmetrics_data_model.Label),
        EncodeMetric.encode f labels =
          (f.read.map fun p =>
            EncodeMetric.encode p.2 (EncodeLabel.encode p.1 ++ labels)).flatten)
      ∧ ∀ labels : List openmetrics_data_model.Label,
          EncodeMetric.encode (Family.mk ([] : List (S × M))) labels = [] := by
  constructor
  · intro f labels
    show Family.encodeMetric f labels = _
    unfold Family.encodeMetric
    have h :=
      foldl_append_eq_join
        (fun p : S × M =>
          EncodeMetric.encode p.2 (EncodeLabel.encode p.1 ++ labels))
        f.read []
    simp only [List.nil_append] at h
    exact h
  · intro labels
    rfl

/-- C3: Counter encode returns exactly one Metric whose labels field is
exactly the input label list, containing exactly one MetricPoint whose
value is a CounterValue whose total is the counter's current value; in
particular a counter incremented k times from zero encodes total k. -/
theorem counter_encode_single_point_current_value (c : Counter)
    (labels : List openmetrics_data_model.Label) :
    EncodeMetric.encode c labels =
        [⟨labels, [⟨some (.counterValue ⟨some (.intValue c.get)⟩)⟩]⟩]
      ∧ ∀ (k : Nat) (ls : List openmetrics_data_model.Label),
          EncodeMetric.encode (Counter.default.incN k) ls =
            [⟨ls, [⟨some (.counterValue ⟨some (.intValue k)⟩)⟩]⟩] := by
  constructor
  · rfl
  · intro k ls
    have hk : ∀ k : Nat, (Counter.default.incN k).get = k := by
      intro k
      induction k with
      | zero => rfl
      | succ n ih => simp [Counter.incN, Counter.inc, Counter.get] at ih ⊢; omega
    show Counter.encodeMetric _ ls = _
    rw [Counter.encodeMetric, hk k]

/-- C4: the encoded family's unit field is the canonical lowercase word
for each of the nine closed unit variants, the literal contained text
for Other, and the empty string when the descriptor has no unit. -/
theorem encode_unit_field_canonical (M : Type) [EncodeMetric M] (m : M)
    (nm hp : String) (ls : List (String × String)) :
    (encodeEntry (⟨nm, hp, some .amperes, ls⟩, m)).unit = "amperes"
  ∧ (encodeEntry (⟨nm, hp, some .bytes, ls⟩, m)).unit = "bytes"
  ∧ (encodeEntry (⟨nm, hp, some .celsius, ls⟩, m)).unit = "celsius"
  ∧ (encodeEntry (⟨nm, hp, some .grams, ls⟩, m)).unit = "grams"
  ∧ (encodeEntry (⟨nm, hp, some .joules, ls⟩, m)).unit = "joules"
  ∧ (encodeEntry (⟨nm, hp, some .meters, ls⟩, m)).unit = "meters"
  ∧ (encodeEntry (⟨nm, hp, some .ratios, ls⟩, m)).unit = "ratios"
  ∧ (encodeEntry (⟨nm, hp, some .seconds, ls⟩, m)).unit = "seconds"
  ∧ (encodeEntry (⟨nm, hp, some .volts, ls⟩, m)).unit = "volts"
  ∧ (∀ t : String, (encodeEntry (⟨nm, hp, some (.other t), ls⟩, m)).unit = t)
  ∧ (encodeEntry (⟨nm, hp, none, ls⟩, m)).unit = "" :=
  ⟨rfl, rfl, rfl, rfl, rfl, rfl, rfl, rfl, rfl, fun _ => rfl, rfl⟩

/-- C5: a single (name, value) pair encodes to exactly one Label whose
fields are the textual representations of the components, and an ordered
sequence of label-bearing values encodes to the in-order concatenation
of each element's own encoding. -/
theorem label_pair_single_and_sequence_flat :
    (∀ (K V : Type) [ToString K] [ToString V] (k : K) (v : V),
        EncodeLabel.encode (k, v) =
          [openmetrics_data_model.Label.mk (toString k) (toString v)])
  ∧ ∀ (T : Type) [EncodeLabel T] (ts : List T),
      EncodeLabel.encode ts = (ts.map EncodeLabel.encode).flatten := by
  constructor
  · intro K V _ _ k v
    rfl
  · intro T _ ts
    show ts.foldl (fun acc t => acc ++ EncodeLabel.encode t) [] = _
    simpa using foldl_append_eq_join (fun t : T => EncodeLabel.encode t) ts []

/-- C6: calling encode and metric_type through the boxed type-erased
handle (for both dyn EncodeMetric and dyn SendEncodeMetric) returns
exactly the same results as calling them directly on the wrapped
concrete value. -/
theorem boxed_erasure_transparent (α : Type) [inst : EncodeMetric α] (m : α)
    (labels : List openmetrics_data_model.Label) :
    (EncodeMetric.encode (BoxedMetric.mk α inst m) labels =
        EncodeMetric.encode m labels
      ∧ EncodeMetric.metric_type (BoxedMetric.mk α inst m) =
          EncodeMetric.metric_type m)
  ∧ (EncodeMetric.encode (SendBoxedMetric.mk α inst m) labels =
        EncodeMetric.encode m labels
      ∧ EncodeMetric.metric_type (SendBoxedMetric.mk α inst m) =
          EncodeMetric.metric_type m) :=
  ⟨⟨rfl, rfl⟩, ⟨rfl, rfl⟩⟩

/-- A registry holding one counter at value 1, registered under name
my_counter with help "My counter" and unit Seconds. -/
def exampleCounterRegistry : registry.Registry Counter :=
  ⟨[(⟨"my_counter", "My counter", some .seconds, []⟩, ⟨1⟩)]⟩

/-- C7 counterexample to purity of observable output: at a registry
holding a single counter, the top-level encode walk emits one line on
standard output (the println of the family's help text), so the walk is
not free of observable output, contradicting the claim; the walk does
remain a total function that mutates no registry entry, descriptor or
metric. -/
theorem encode_prints_help_line :
    (encode exampleCounterRegistry).2 = ["family.help: My counter"]
      ∧ (encode exampleCounterRegistry).2 ≠ [] := by
  constructor
  · rfl
  · intro h
    simp [encode, exampleCounterRegistry, registry.Registry.iter] at h

/-- C8: label-set encoding is a homomorphism from sequence concatenation
to label-list concatenation: encoding the two-element sequence equals
encoding each singleton and concatenating. -/
theorem label_encode_concat_homomorphism (T : Type) [EncodeLabel T] (a b : T) :
    EncodeLabel.encode [a, b] =
      EncodeLabel.encode [a] ++ EncodeLabel.encode [b] := by
  show List.foldl _ [] [a, b] = List.foldl _ [] [a] ++ List.foldl _ [] [b]
  simp

/-- C9: metric_type is a pure, data-independent classification: every
Counter reports Counter regardless of its value, and every Family
reports the fixed type of its metric kind M regardless of its entries. -/
theorem metric_type_data_independent :
    (∀ c : Counter, EncodeMetric.metric_type c = metrics.MetricType.counter)
  ∧ ∀ (S M : Type) [EncodeLabel S] [EncodeMetric M] [TypedMetric M]
      (f : Family S M),
        EncodeMetric.metric_type f = TypedMetric.TYPE M := by
  constructor
  · intro c
    rfl
  · intro S M _ _ _ f
    rfl

/-- C10: the single MetricPoint emitted by Counter encode always has its
CounterValue total present, and always as the integer variant, never the
float variant. -/
theorem counter_total_always_present_int (c : Counter)
    (labels : List openmetrics_data_model.Label) :
    ∃ n : Nat,
      EncodeMetric.encode c labels =
        [⟨labels,
          [⟨some (.counterValue
            ⟨some (openmetrics_data_model.counter_value.Total.intValue n)⟩)⟩]⟩] :=
  ⟨c.get, rfl⟩

end ClientRust
